import Mathlib

/-!
Verification of the request-signing, request-dispatch, synonym/search helpers
and locale-conversion functions of the opti-astro repository.

The embedding follows the TypeScript sources:
* `src/utils/optimizely-hmac.ts` — `createHmacAuthHeader`,
  `makeOptimizelyGraphRequest`, `uploadSynonyms`, `getOptimizelyGraphConfig`;
* `src/src/middleware.ts` — `localeToSdkLocale`, `normalizeLocale`;
* the graph utility module — `transformContentItem`, `searchContent`.

Machine integers are modelled as `Nat` with explicit reduction modulo `2 ^ 32`;
the Node `crypto` primitives (MD5, HMAC-SHA256) and base64 codecs are
implemented concretely so that headers evaluate to actual strings.
Environment effects (the clock, the random nonce source, the network) are
passed as explicit arguments.
-/

namespace OptiAstro

/-! ### 32-bit arithmetic helpers -/

def m32 : Nat := 2 ^ 32

def not32 (x : Nat) : Nat := 0xffffffff ^^^ x

def rotl32 (x n : Nat) : Nat := ((x <<< n) % m32) ||| (x >>> (32 - n))

def rotr32 (x n : Nat) : Nat := (x >>> n) ||| ((x <<< (32 - n)) % m32)

/-! ### Byte/word conversions -/

def le32 (n : Nat) : List Nat :=
  [n % 256, (n >>> 8) % 256, (n >>> 16) % 256, (n >>> 24) % 256]

def be32 (n : Nat) : List Nat :=
  [(n >>> 24) % 256, (n >>> 16) % 256, (n >>> 8) % 256, n % 256]

def le64 (n : Nat) : List Nat := (List.range 8).map (fun i => (n >>> (8 * i)) % 256)

def be64 (n : Nat) : List Nat := (List.range 8).map (fun i => (n >>> (8 * (7 - i))) % 256)

/-- Bytes to 32-bit words, little-endian (MD5's word order). -/
def leWords : List Nat → List Nat
  | b0 :: b1 :: b2 :: b3 :: rest =>
    (b0 ||| (b1 <<< 8) ||| (b2 <<< 16) ||| (b3 <<< 24)) :: leWords rest
  | _ => []

/-- Bytes to 32-bit words, big-endian (SHA-256's word order). -/
def beWords : List Nat → List Nat
  | b0 :: b1 :: b2 :: b3 :: rest =>
    ((b0 <<< 24) ||| (b1 <<< 16) ||| (b2 <<< 8) ||| b3) :: beWords rest
  | _ => []

/-- Split a byte list into 64-byte blocks; the fuel argument (instantiated with
the list length, which bounds the number of blocks) keeps the recursion
structural so that it reduces inside the kernel. -/
def chunks64Fuel : Nat → List Nat → List (List Nat)
  | _, [] => []
  | 0, _ => []
  | fuel + 1, x :: xs => ((x :: xs).take 64) :: chunks64Fuel fuel (xs.drop 63)

/-- Split a byte list into 64-byte blocks. -/
def chunks64 (l : List Nat) : List (List Nat) := chunks64Fuel l.length l

/-! ### MD5 (used by the signer as the body fingerprint) -/

/-- The 64 MD5 sine-derived round constants, in decimal. -/
def md5K : List Nat :=
  [3614090360, 3905402710, 606105819, 3250441966, 4118548399, 1200080426,
   2821735955, 4249261313, 1770035416, 2336552879, 4294925233, 2304563134,
   1804603682, 4254626195, 2792965006, 1236535329, 4129170786, 3225465664,
   643717713, 3921069994, 3593408605, 38016083, 3634488961, 3889429448,
   568446438, 3275163606, 4107603335, 1163531501, 2850285829, 4243563512,
   1735328473, 2368359562, 4294588738, 2272392833, 1839030562, 4259657740,
   2763975236, 1272893353, 4139469664, 3200236656, 681279174, 3936430074,
   3572445317, 76029189, 3654602809, 3873151461, 530742520, 3299628645,
   4096336452, 1126891415, 2878612391, 4237533241, 1700485571, 2399980690,
   4293915773, 2240044497, 1873313359, 4264355552, 2734768916, 1309151649,
   4149444226, 3174756917, 718787259, 3951481745]

def md5S : List Nat :=
  [7, 12, 17, 22, 7, 12, 17, 22, 7, 12, 17, 22, 7, 12, 17, 22,
   5, 9, 14, 20, 5, 9, 14, 20, 5, 9, 14, 20, 5, 9, 14, 20,
   4, 11, 16, 23, 4, 11, 16, 23, 4, 11, 16, 23, 4, 11, 16, 23,
   6, 10, 15, 21, 6, 10, 15, 21, 6, 10, 15, 21, 6, 10, 15, 21]

def md5Step (m : List Nat) (st : Nat × Nat × Nat × Nat) (i : Nat) :
    Nat × Nat × Nat × Nat :=
  let (a, b, c, d) := st
  let f :=
    if i < 16 then (b &&& c) ||| (not32 b &&& d)
    else if i < 32 then (d &&& b) ||| (not32 d &&& c)
    else if i < 48 then b ^^^ c ^^^ d
    else c ^^^ (b ||| not32 d)
  let g :=
    if i < 16 then i
    else if i < 32 then (5 * i + 1) % 16
    else if i < 48 then (3 * i + 5) % 16
    else (7 * i) % 16
  let sum := (a + f + md5K.getD i 0 + m.getD g 0) % m32
  (d, (b + rotl32 sum (md5S.getD i 0)) % m32, b, c)

def md5Block (st : Nat × Nat × Nat × Nat) (chunk : List Nat) :
    Nat × Nat × Nat × Nat :=
  let m := leWords chunk
  let (a, b, c, d) := (List.range 64).foldl (md5Step m) st
  let (a0, b0, c0, d0) := st
  ((a0 + a) % m32, (b0 + b) % m32, (c0 + c) % m32, (d0 + d) % m32)

/-- Merkle–Damgård padding: `0x80`, zeros to 56 mod 64, then the bit length. -/
def padZeros (len : Nat) : List Nat := List.replicate ((119 - len % 64) % 64) 0

def md5Pad (msg : List Nat) : List Nat :=
  msg ++ [0x80] ++ padZeros msg.length ++ le64 ((8 * msg.length) % 2 ^ 64)

/-- MD5 digest of a byte list (Node `createHash('md5')`). -/
def md5 (msg : List Nat) : List Nat :=
  let (a, b, c, d) :=
    (chunks64 (md5Pad msg)).foldl md5Block
      (1732584193, 4023233417, 2562383102, 271733878)
  le32 a ++ le32 b ++ le32 c ++ le32 d

/-! ### SHA-256 and HMAC-SHA256 (Node `createHmac('sha256', key)`) -/

/-- The 64 SHA-256 cube-root-derived round constants, in decimal. -/
def sha256K : List Nat :=
  [1116352408, 1899447441, 3049323471, 3921009573, 961987163, 1508970993,
   2453635748, 2870763221, 3624381080, 310598401, 607225278, 1426881987,
   1925078388, 2162078206, 2614888103, 3248222580, 3835390401, 4022224774,
   264347078, 604807628, 770255983, 1249150122, 1555081692, 1996064986,
   2554220882, 2821834349, 2952996808, 3210313671, 3336571891, 3584528711,
   113926993, 338241895, 666307205, 773529912, 1294757372, 1396182291,
   1695183700, 1986661051, 2177026350, 2456956037, 2730485921, 2820302411,
   3259730800, 3345764771, 3516065817, 3600352804, 4094571909, 275423344,
   430227734, 506948616, 659060556, 883997877, 958139571, 1322822218,
   1537002063, 1747873779, 1955562222, 2024104815, 2227730452, 2361852424,
   2428436474, 2756734187, 3204031479, 3329325298]

structure Sha256State where
  a : Nat
  b : Nat
  c : Nat
  d : Nat
  e : Nat
  f : Nat
  g : Nat
  h : Nat

/-- Extend 16 message words to the 64-word schedule. -/
def sha256Sched (w0 : List Nat) : List Nat :=
  (List.range 48).foldl (fun w _ =>
    let n := w.length
    let w15 := w.getD (n - 15) 0
    let w2 := w.getD (n - 2) 0
    let s0 := rotr32 w15 7 ^^^ rotr32 w15 18 ^^^ (w15 >>> 3)
    let s1 := rotr32 w2 17 ^^^ rotr32 w2 19 ^^^ (w2 >>> 10)
    w ++ [(w.getD (n - 16) 0 + s0 + w.getD (n - 7) 0 + s1) % m32]) w0

def sha256Round (w : List Nat) (s : Sha256State) (i : Nat) : Sha256State :=
  let bigS1 := rotr32 s.e 6 ^^^ rotr32 s.e 11 ^^^ rotr32 s.e 25
  let ch := (s.e &&& s.f) ^^^ (not32 s.e &&& s.g)
  let temp1 := (s.h + bigS1 + ch + sha256K.getD i 0 + w.getD i 0) % m32
  let bigS0 := rotr32 s.a 2 ^^^ rotr32 s.a 13 ^^^ rotr32 s.a 22
  let maj := (s.a &&& s.b) ^^^ (s.a &&& s.c) ^^^ (s.b &&& s.c)
  let temp2 := (bigS0 + maj) % m32
  ⟨(temp1 + temp2) % m32, s.a, s.b, s.c, (s.d + temp1) % m32, s.e, s.f, s.g⟩

def sha256Block (st : Sha256State) (chunk : List Nat) : Sha256State :=
  let w := sha256Sched (beWords chunk)
  let r := (List.range 64).foldl (sha256Round w) st
  ⟨(st.a + r.a) % m32, (st.b + r.b) % m32, (st.c + r.c) % m32,
   (st.d + r.d) % m32, (st.e + r.e) % m32, (st.f + r.f) % m32,
   (st.g + r.g) % m32, (st.h + r.h) % m32⟩

def sha256Pad (msg : List Nat) : List Nat :=
  msg ++ [0x80] ++ padZeros msg.length ++ be64 ((8 * msg.length) % 2 ^ 64)

/-- SHA-256 digest of a byte list. -/
def sha256 (msg : List Nat) : List Nat :=
  let st :=
    (chunks64 (sha256Pad msg)).foldl sha256Block
      ⟨1779033703, 3144134277, 1013904242, 2773480762,
       1359893119, 2600822924, 528734635, 1541459225⟩
  be32 st.a ++ be32 st.b ++ be32 st.c ++ be32 st.d ++
  be32 st.e ++ be32 st.f ++ be32 st.g ++ be32 st.h

/-- HMAC-SHA256 with byte-list key and message. -/
def hmacSha256 (key msg : List Nat) : List Nat :=
  let k0 := if 64 < key.length then sha256 key else key
  let k := k0 ++ List.replicate (64 - k0.length) 0
  let ipad := k.map (fun b => b ^^^ 0x36)
  let opad := k.map (fun b => b ^^^ 0x5c)
  sha256 (opad ++ sha256 (ipad ++ msg))

/-! ### UTF-8 and base64 -/

/-- UTF-8 encoding of one character (what `update(..., 'utf8')` feeds a hash). -/
def utf8EncodeChar (c : Char) : List Nat :=
  let n := c.toNat
  if n < 0x80 then [n]
  else if n < 0x800 then [0xc0 ||| (n >>> 6), 0x80 ||| (n &&& 0x3f)]
  else if n < 0x10000 then
    [0xe0 ||| (n >>> 12), 0x80 ||| ((n >>> 6) &&& 0x3f), 0x80 ||| (n &&& 0x3f)]
  else
    [0xf0 ||| (n >>> 18), 0x80 ||| ((n >>> 12) &&& 0x3f),
     0x80 ||| ((n >>> 6) &&& 0x3f), 0x80 ||| (n &&& 0x3f)]

def utf8Bytes (s : String) : List Nat := (s.data.map utf8EncodeChar).flatten

def base64Chars : List Char :=
  "ABCDEFGHIJKLMNOPQRSTUVWXYZabcdefghijklmnopqrstuvwxyz0123456789+/".data

def b64Char (n : Nat) : Char := base64Chars.getD n 'A'

/-- Standard base64 encoding with `=` padding (`Buffer.digest('base64')`). -/
def base64Encode : List Nat → String
  | [] => ""
  | [b0] =>
    ⟨[b64Char (b0 >>> 2), b64Char ((b0 &&& 3) <<< 4), '=', '=']⟩
  | [b0, b1] =>
    ⟨[b64Char (b0 >>> 2), b64Char (((b0 &&& 3) <<< 4) ||| (b1 >>> 4)),
      b64Char ((b1 &&& 15) <<< 2), '=']⟩
  | b0 :: b1 :: b2 :: rest =>
    (⟨[b64Char (b0 >>> 2), b64Char (((b0 &&& 3) <<< 4) ||| (b1 >>> 4)),
       b64Char (((b1 &&& 15) <<< 2) ||| (b2 >>> 6)), b64Char (b2 &&& 63)]⟩ : String)
    ++ base64Encode rest

/-- Value of a character in Node's lenient base64 decoder; it also accepts the
base64url alphabet. `none` marks characters the decoder skips (including `=`). -/
def base64CharValue (c : Char) : Option Nat :=
  if 'A' ≤ c ∧ c ≤ 'Z' then some (c.toNat - 'A'.toNat)
  else if 'a' ≤ c ∧ c ≤ 'z' then some (c.toNat - 'a'.toNat + 26)
  else if '0' ≤ c ∧ c ≤ '9' then some (c.toNat - '0'.toNat + 52)
  else if c = '+' ∨ c = '-' then some 62
  else if c = '/' ∨ c = '_' then some 63
  else none

/-- Reassemble bytes from 6-bit groups; a trailing group of one is dropped. -/
def sextetsToBytes : List Nat → List Nat
  | s0 :: s1 :: s2 :: s3 :: rest =>
    ((s0 <<< 2) ||| (s1 >>> 4)) ::
      ((((s1 &&& 15) <<< 4) ||| (s2 >>> 2)) ::
        ((((s2 &&& 3) <<< 6) ||| s3) :: sextetsToBytes rest))
  | [s0, s1, s2] =>
    [(s0 <<< 2) ||| (s1 >>> 4), ((s1 &&& 15) <<< 4) ||| (s2 >>> 2)]
  | [s0, s1] => [(s0 <<< 2) ||| (s1 >>> 4)]
  | _ => []

/-- Model of Node `Buffer.from(s, 'base64')`: characters outside the (url-safe
extended) base64 alphabet and padding are skipped, whatever remains is decoded,
and a trailing partial group of one character yields no byte. The decoder is
total: it never throws, regardless of input. -/
def nodeBase64Decode (s : String) : List Nat :=
  sextetsToBytes (s.data.filterMap base64CharValue)

/-- Strict RFC 4648 well-formedness: standard alphabet, length a multiple of
four, at most two `=` only at the end. The spec's notion of a "valid base64"
secret. -/
def isValidBase64 (s : String) : Bool :=
  let cs := s.data
  let body := cs.takeWhile (fun c => c ≠ '=')
  let pad := cs.drop body.length
  cs.length % 4 == 0 &&
  body.all (fun c =>
    ('A' ≤ c && c ≤ 'Z') || ('a' ≤ c && c ≤ 'z') ||
    ('0' ≤ c && c ≤ '9') || c == '+' || c == '/') &&
  pad.length ≤ 2 && pad.all (fun c => c = '=')

/-! ### JavaScript string truthiness

`x || y` on string-or-undefined values picks `y` when `x` is `undefined`,
`null` or the empty string. `Option String` models `string | undefined | null`
(with both absent values collapsed to `none`). -/

def truthyS (s : Option String) : Bool :=
  match s with
  | none => false
  | some str => !str.isEmpty

/-- JS `a || b` for string-or-undefined values. -/
def jsOr (a b : Option String) : Option String := if truthyS a then a else b

/-- JS `a || d` where `d` is a non-empty string literal, so the result is a
definite string. -/
def jsOrDefault (a : Option String) (d : String) : String :=
  if truthyS a then a.getD "" else d

/-! ### `src/utils/optimizely-hmac.ts` -/

structure OptimizelyGraphConfig where
  gatewayUrl : String
  appKey : String
  secret : String
deriving DecidableEq, Repr

structure HmacAuthHeader where
  authorization : String
deriving DecidableEq, Repr

/-- Shallow embedding of `createHmacAuthHeader`. `Date.now()` and
`randomBytes(16).toString('hex')` are environment effects, so the timestamp
and nonce they produce are passed explicitly; everything else follows the
source line by line. `Buffer.from(config.secret, 'base64')` is Node's lenient
decoder (`nodeBase64Decode`), which never throws. -/
def createHmacAuthHeader (config : OptimizelyGraphConfig) (method path : String)
    (timestamp : Nat) (nonce : String) (body : String := "") : HmacAuthHeader :=
  let bodyMd5 := base64Encode (md5 (utf8Bytes body))
  let signatureData :=
    config.appKey ++ method ++ path ++ toString timestamp ++ nonce ++ bodyMd5
  let secretBuffer := nodeBase64Decode config.secret
  let base64hmac := base64Encode (hmacSha256 secretBuffer (utf8Bytes signatureData))
  let authHeader :=
    "epi-hmac " ++ config.appKey ++ ":" ++ toString timestamp ++ ":" ++ nonce ++
      ":" ++ base64hmac
  { authorization := authHeader }

/-- Hex digit used in percent-escapes (WHATWG serializes them uppercase). -/
def hexUpper (n : Nat) : Char := "0123456789ABCDEF".data.getD n '0'

/-- The `application/x-www-form-urlencoded` percent-encoding of one byte, as
`URLSearchParams` serialization applies it: ASCII alphanumerics and
`*`, `-`, `.`, `_` pass through, space becomes `+`, every other byte a
`%XX` escape. -/
def formUrlEncodeByte (b : Nat) : List Char :=
  if (0x30 ≤ b ∧ b ≤ 0x39) ∨ (0x41 ≤ b ∧ b ≤ 0x5a) ∨ (0x61 ≤ b ∧ b ≤ 0x7a) ∨
      b = 0x2a ∨ b = 0x2d ∨ b = 0x2e ∨ b = 0x5f then
    [Char.ofNat b]
  else if b = 0x20 then ['+']
  else ['%', hexUpper (b >>> 4), hexUpper (b &&& 15)]

def formUrlEncode (s : String) : String :=
  ⟨((utf8Bytes s).map formUrlEncodeByte).flatten⟩

/-- Value of `url.search` after appending the given parameters to a URL that had none:
empty for no parameters, otherwise `?k=v&...` in insertion order. Model of
the platform `URL`/`URLSearchParams` pair used by the dispatcher. -/
def urlSearch (queryParams : List (String × String)) : String :=
  if queryParams.isEmpty then ""
  else
    "?" ++ String.intercalate "&"
      (queryParams.map (fun p => formUrlEncode p.1 ++ "=" ++ formUrlEncode p.2))

/-- Value of `url.pathname + url.search` for `new URL(endpoint, config.gatewayUrl)`
with the query parameters appended — the string the request is signed over.
Models the platform `URL` class for the inputs this repository uses:
path-absolute endpoints without query or fragment, against an origin-form
gateway URL, so `url.pathname` is the endpoint itself. -/
def pathWithQuery (endpoint : String) (queryParams : List (String × String)) :
    String :=
  endpoint ++ urlSearch queryParams

/-- The options object of `makeOptimizelyGraphRequest`, with the source's
destructuring defaults. -/
structure RequestOptions where
  method : String := "GET"
  body : String := ""
  headers : List (String × String) := []
  queryParams : List (String × String) := []

/-- The outgoing `fetch` call: URL, method, headers (in spread order, later
entries overriding earlier duplicates) and the attached body, `none` when
`fetch` receives `body: undefined`. -/
structure OutgoingRequest where
  url : String
  method : String
  headers : List (String × String)
  body : Option String
deriving DecidableEq, Repr

/-- Shallow embedding of `makeOptimizelyGraphRequest` up to the point the
`fetch` call is issued: it returns the request that is sent. The timestamp
and nonce consumed by the signer are passed explicitly. -/
def makeOptimizelyGraphRequest (config : OptimizelyGraphConfig)
    (endpoint : String) (options : RequestOptions) (timestamp : Nat)
    (nonce : String) : OutgoingRequest :=
  let pwq := pathWithQuery endpoint options.queryParams
  let authHeader :=
    createHmacAuthHeader config options.method pwq timestamp nonce options.body
  { url := config.gatewayUrl ++ pwq
    method := options.method
    headers := [("Content-Type", "text/plain")] ++ options.headers ++
      [("authorization", authHeader.authorization)]
    body := if options.method ≠ "GET" then some options.body else none }

/-- A settled `fetch` response as the callers observe it: status line plus the
text the body resolves to. `ok` is derived, WHATWG-style, below. -/
structure HttpTextResponse where
  status : Nat
  statusText : String
  bodyText : String

/-- WHATWG `Response.ok`: status in the 2xx range. -/
def responseOk (status : Nat) : Bool := 200 ≤ status && status < 300

/-- Outcome of an awaited promise: resolved with a value, or rejected with a
thrown value — `some msg` for an `Error` carrying `msg`, `none` for a
non-`Error` throw. -/
inductive FetchOutcome (ρ : Type) where
  | resolved (r : ρ)
  | rejected (errMessage : Option String)

structure SynonymsUploadResult where
  success : Bool
  message : String
  error : Option String := none
deriving DecidableEq, Repr

/-- The options object of `uploadSynonyms`, with the source's defaults. -/
structure SynonymOptions where
  synonymSlot : String := "1"
  languageRouting : String := "standard"

/-- The request `uploadSynonyms` hands to `makeOptimizelyGraphRequest`. -/
def uploadSynonymsRequest (config : OptimizelyGraphConfig) (synonyms : String)
    (options : SynonymOptions) (timestamp : Nat) (nonce : String) :
    OutgoingRequest :=
  makeOptimizelyGraphRequest config "/resources/synonyms"
    { method := "PUT"
      body := synonyms
      queryParams := [("synonym_slot", options.synonymSlot),
                      ("language_routing", options.languageRouting)] }
    timestamp nonce

/-- Shallow embedding of `uploadSynonyms`. `net` models the network: the
outcome of awaiting the `fetch` of the given request; a rejection anywhere in
the `try` block lands in the `catch`. -/
def uploadSynonyms (config : OptimizelyGraphConfig) (synonyms : String)
    (options : SynonymOptions) (timestamp : Nat) (nonce : String)
    (net : OutgoingRequest → FetchOutcome HttpTextResponse) :
    SynonymsUploadResult :=
  match net (uploadSynonymsRequest config synonyms options timestamp nonce) with
  | .rejected e =>
    { success := false
      message := "Network error"
      error := some (e.getD "Unknown error") }
  | .resolved response =>
    if responseOk response.status then
      { success := true
        message := "Synonyms successfully uploaded to slot " ++
          options.synonymSlot ++ " for language routing: " ++
          options.languageRouting }
    else
      { success := false
        message := "Failed to upload synonyms"
        error := some (toString response.status ++ " " ++ response.statusText ++
          " - " ++ response.bodyText) }

/-- The environment variables `getOptimizelyGraphConfig` reads; `none` models
an unset variable. -/
structure ImportMetaEnv where
  gatewayUrlVar : Option String := none
  appKeyVar : Option String := none
  secretVar : Option String := none

/-- Shallow embedding of `getOptimizelyGraphConfig`; `throw new Error(...)`
is modelled as `Except.error` of the error's message. -/
def getOptimizelyGraphConfig (env : ImportMetaEnv) :
    Except String OptimizelyGraphConfig :=
  let gatewayUrl := jsOrDefault env.gatewayUrlVar "https://cg.optimizely.com"
  let appKey := env.appKeyVar
  let secret := env.secretVar
  if !truthyS appKey || !truthyS secret then
    .error "Missing required environment variables: OPTIMIZELY_GRAPH_APP_KEY and OPTIMIZELY_GRAPH_SECRET"
  else
    .ok { gatewayUrl := gatewayUrl, appKey := appKey.getD "", secret := secret.getD "" }

/-! ### `src/src/middleware.ts` — locale conversion -/

/-- JS `String.prototype.replace` with a global single-character regex (the
dash-to-underscore and underscore-to-dash rewrites): every occurrence of `a`
becomes `b`, all other characters untouched. -/
def replaceAllChar (a b : Char) (s : String) : String :=
  ⟨s.data.map (fun c => if c = a then b else c)⟩

/-- ASCII lowering of one character; locale tags are ASCII (language, script
and region subtags per the spec's LocaleTag data model), where JS
`toLowerCase` and the ASCII case map agree. -/
def jsCharToLower (c : Char) : Char :=
  if 'A' ≤ c ∧ c ≤ 'Z' then Char.ofNat (c.toNat + 32) else c

/-- ASCII raising of one character (JS `toUpperCase` on ASCII input). -/
def jsCharToUpper (c : Char) : Char :=
  if 'a' ≤ c ∧ c ≤ 'z' then Char.ofNat (c.toNat - 32) else c

def jsToLowerCase (s : String) : String := ⟨s.data.map jsCharToLower⟩

def jsToUpperCase (s : String) : String := ⟨s.data.map jsCharToUpper⟩

def jsSplitAux (sep : Char) : List Char → List Char → List (List Char)
  | [], acc => [acc.reverse]
  | c :: cs, acc =>
    if c = sep then acc.reverse :: jsSplitAux sep cs []
    else jsSplitAux sep cs (c :: acc)

/-- JS `String.prototype.split` with a single-character separator: empty
pieces are kept, and splitting the empty string yields `[""]`. -/
def jsSplit (sep : Char) (s : String) : List String :=
  (jsSplitAux sep s.data []).map String.mk

/-- Shallow embedding of `localeToSdkLocale`. -/
def localeToSdkLocale (locale : String) : String :=
  let result := replaceAllChar '-' '_' locale
  let parts := jsSplit '_' result
  match parts with
  | [p0, p1] => jsToLowerCase p0 ++ "_" ++ jsToUpperCase p1
  | [p0, p1, p2] => jsToLowerCase p0 ++ "_" ++ p1 ++ "_" ++ jsToUpperCase p2
  | _ => jsToLowerCase result

/-- Shallow embedding of `normalizeLocale`. -/
def normalizeLocale (locale : String) : String := replaceAllChar '_' '-' locale

/-! ### Graph utility module — `transformContentItem`, `searchContent` -/

structure MetadataUrl where
  base : Option String := none
  default : Option String := none

structure ItemMetadata where
  key : Option String := none
  displayName : Option String := none
  types : Option (List String) := none
  locale : Option String := none
  url : Option MetadataUrl := none

structure ContentLinkValue where
  GuidValue : Option String := none

structure LanguageValue where
  Name : Option String := none

structure RankingValue where
  semantic : Option Float := none

/-- A raw backend item, covering both response shapes the code reads: the
`_metadata`-style fields and the legacy capitalized fields. Absent JSON keys
are `none`. -/
structure RawItem where
  _metadata : Option ItemMetadata := none
  _id : Option String := none
  ContentLink : Option ContentLinkValue := none
  Name : Option String := none
  PageName : Option String := none
  ContentType : Option (List String) := none
  Status : Option String := none
  Language : Option LanguageValue := none
  Url : Option String := none
  _ranking : Option RankingValue := none
  Modified : Option String := none

/-- The normalized item `transformContentItem` returns. -/
structure SearchResultItem where
  guid : Option String
  name : String
  contentType : String
  status : Option String
  language : String
  url : Option String
  score : Option Float
  modified : Option String
  id : Option String

/-- Shallow embedding of `transformContentItem`. `resolveUrl default base`
models `new URL(default, base).href`: `some href` on success, `none` when the
constructor throws (the `catch` then keeps the previously computed URL). -/
def transformContentItem (resolveUrl : String → String → Option String)
    (item : RawItem) : SearchResultItem :=
  let metaUrl := item._metadata.bind (fun m => m.url)
  let finalUrl := jsOr item.Url (metaUrl.bind (fun u => u.default))
  let finalUrl :=
    if truthyS (metaUrl.bind (fun u => u.base)) &&
        truthyS (metaUrl.bind (fun u => u.default)) then
      match resolveUrl ((metaUrl.bind (fun u => u.default)).getD "")
          ((metaUrl.bind (fun u => u.base)).getD "") with
      | some href => some href
      | none => finalUrl
    else finalUrl
  { guid := jsOr (item._metadata.bind (fun m => m.key))
      (jsOr item._id (item.ContentLink.bind (fun c => c.GuidValue)))
    name := jsOrDefault
      (jsOr item.Name (jsOr item.PageName
        (item._metadata.bind (fun m => m.displayName)))) "Untitled"
    contentType := jsOrDefault
      (jsOr (item.ContentType.bind List.head?)
        ((item._metadata.bind (fun m => m.types)).bind List.head?)) "Unknown"
    status := item.Status
    language := jsOrDefault
      (jsOr (item.Language.bind (fun l => l.Name))
        (item._metadata.bind (fun m => m.locale))) "Unknown"
    url := finalUrl
    score := item._ranking.bind (fun r => r.semantic)
    modified := item.Modified
    id := item._id }

structure GraphQLErrorValue where
  message : String

structure ContentItemsValue where
  items : Option (List RawItem) := none

/-- Shape of `result.data`, with both forms the extraction tolerates. -/
structure GraphQLDataValue where
  Content : Option ContentItemsValue := none
  _Content : Option ContentItemsValue := none

structure GraphQLResultValue where
  errors : Option (List GraphQLErrorValue) := none
  data : Option GraphQLDataValue := none

/-- A settled GraphQL HTTP response: status line, the text the body resolves
to, and the outcome of `response.json()` — `.error msg` when parsing rejects
with an `Error` carrying `msg`. -/
structure GraphResponse where
  status : Nat
  statusText : String
  bodyText : String
  json : Except String GraphQLResultValue

/-- JS `a || b` on array-or-undefined values: only `undefined`/`null` are falsy —
an array, even empty, is truthy. -/
def jsOrArr (a b : Option (List RawItem)) : Option (List RawItem) :=
  match a with
  | some v => some v
  | none => b

structure SearchContentResult where
  items : List SearchResultItem
  error : Option String := none

/-- Shallow embedding of `searchContent`. The awaited `makeGraphQLRequest`
network call is an environment effect passed in as `outcome`; any rejection
inside the `try` block is the `rejected` case, handled by the `catch`. -/
def searchContent (resolveUrl : String → String → Option String)
    (outcome : FetchOutcome GraphResponse) : SearchContentResult :=
  match outcome with
  | .rejected e =>
    { items := [], error := some (e.getD "Unknown error during content search") }
  | .resolved response =>
    if !responseOk response.status then
      { items := []
        error := some ("GraphQL query failed: " ++ toString response.status ++
          " " ++ response.statusText ++ " - " ++ response.bodyText) }
    else
      match response.json with
      | .error msg => { items := [], error := some msg }
      | .ok result =>
        match result.errors with
        | some errs =>
          { items := []
            error := some ("GraphQL errors: " ++
              String.intercalate ", " (errs.map (fun e => e.message))) }
        | none =>
          let items :=
            (jsOrArr ((result.data.bind (fun d => d.Content)).bind
                (fun c => c.items))
              ((result.data.bind (fun d => d._Content)).bind
                (fun c => c.items))).getD []
          let transformedItems :=
            (items.map (transformContentItem resolveUrl)).filter
              (fun i => truthyS i.guid)
          { items := transformedItems }

/-! ### The claim C1 algorithm as the spec words it

For the refinement comparison only: identical to `createHmacAuthHeader`
except that the method is uppercased before entering the signature input, as
"the method uppercased" demands. -/

def specComputeAuthHeader (config : OptimizelyGraphConfig) (method path : String)
    (timestamp : Nat) (nonce : String) (body : String := "") : HmacAuthHeader :=
  let bodyMd5 := base64Encode (md5 (utf8Bytes body))
  let signatureData :=
    config.appKey ++ jsToUpperCase method ++ path ++ toString timestamp ++ nonce ++ bodyMd5
  let secretBuffer := nodeBase64Decode config.secret
  let base64hmac := base64Encode (hmacSha256 secretBuffer (utf8Bytes signatureData))
  { authorization :=
      "epi-hmac " ++ config.appKey ++ ":" ++ toString timestamp ++ ":" ++ nonce ++
        ":" ++ base64hmac }

/-! ### Claims about the locale resolver -/

/-- C3: `localeToSdkLocale` first replaces every dash with an underscore,
then lowercases a 1-segment input whole; for 2 segments it lowercases the
language and uppercases the region; for 3 segments it lowercases the
language, preserves the script's case and uppercases the region; and the
three documented examples hold. -/
theorem localeToSdkLocale_segment_rules (l : String) :
    ((jsSplit '_' (replaceAllChar '-' '_' l)).length = 1 →
      localeToSdkLocale l = jsToLowerCase (replaceAllChar '-' '_' l)) ∧
    (∀ p0 p1, jsSplit '_' (replaceAllChar '-' '_' l) = [p0, p1] →
      localeToSdkLocale l = jsToLowerCase p0 ++ "_" ++ jsToUpperCase p1) ∧
    (∀ p0 p1 p2, jsSplit '_' (replaceAllChar '-' '_' l) = [p0, p1, p2] →
      localeToSdkLocale l =
        jsToLowerCase p0 ++ "_" ++ p1 ++ "_" ++ jsToUpperCase p2) ∧
    localeToSdkLocale "fr-ca" = "fr_CA" ∧
    localeToSdkLocale "zh-Hans-HK" = "zh_Hans_HK" ∧
    localeToSdkLocale "EN" = "en" := by
  refine ⟨?_, ?_, ?_, by decide, by decide, by decide⟩
  · intro h
    obtain ⟨a, ha⟩ := List.length_eq_one.mp h
    simp only [localeToSdkLocale]
    rw [ha]
  · intro p0 p1 h
    simp only [localeToSdkLocale]
    rw [h]
  · intro p0 p1 p2 h
    simp only [localeToSdkLocale]
    rw [h]

/-- Witness for C3: the two-segment rule applied to the concrete input
`"fr-ca"`. -/
theorem localeToSdkLocale_segment_rules_witness :
    jsSplit '_' (replaceAllChar '-' '_' "fr-ca") = ["fr", "ca"] ∧
    localeToSdkLocale "fr-ca" = jsToLowerCase "fr" ++ "_" ++ jsToUpperCase "ca" :=
  ⟨by decide, (localeToSdkLocale_segment_rules "fr-ca").2.1 "fr" "ca" (by decide)⟩

/-- Mapping a single-character replacement over a list without that
character leaves it unchanged. -/
theorem map_replace_eq_self (a b : Char) (xs : List Char) (h : a ∉ xs) :
    xs.map (fun c => if c = a then b else c) = xs := by
  induction xs with
  | nil => rfl
  | cons c cs ih =>
    simp only [List.mem_cons, not_or] at h
    rw [List.map_cons, if_neg (fun hca => h.1 hca.symm), ih h.2]

/-- One separator-free run yields a single piece. -/
theorem jsSplitAux_no_sep (sep : Char) (xs acc : List Char) (h : sep ∉ xs) :
    jsSplitAux sep xs acc = [acc.reverse ++ xs] := by
  induction xs generalizing acc with
  | nil => simp [jsSplitAux]
  | cons c cs ih =>
    simp only [List.mem_cons, not_or] at h
    rw [jsSplitAux, if_neg (fun hcs => h.1 hcs.symm), ih _ h.2]
    simp

/-- A separator ends the current piece and restarts the accumulator. -/
theorem jsSplitAux_sep_split (sep : Char) (xs ys acc : List Char) (h : sep ∉ xs) :
    jsSplitAux sep (xs ++ sep :: ys) acc =
      (acc.reverse ++ xs) :: jsSplitAux sep ys [] := by
  induction xs generalizing acc with
  | nil => simp [jsSplitAux]
  | cons c cs ih =>
    simp only [List.mem_cons, not_or] at h
    rw [List.cons_append, jsSplitAux, if_neg (fun hcs => h.1 hcs.symm), ih _ h.2]
    simp

/-- The locale round trip on any dash-separated 2-segment input whose
language segment is already lowercase and whose region segment is already
uppercase (segments free of separators): `localeToSdkLocale` turns it into
`language_REGION` unchanged up to the separator, and `normalizeLocale` turns
the separator back. -/
theorem localeRoundTrip (p0 p1 : String)
    (h0d : '-' ∉ p0.data) (h0u : '_' ∉ p0.data)
    (h1d : '-' ∉ p1.data) (h1u : '_' ∉ p1.data)
    (hlow : jsToLowerCase p0 = p0) (hup : jsToUpperCase p1 = p1) :
    normalizeLocale (localeToSdkLocale (p0 ++ "-" ++ p1)) = p0 ++ "-" ++ p1 := by
  have hdata : (p0 ++ "-" ++ p1).data = p0.data ++ '-' :: p1.data := by
    show p0.data ++ ['-'] ++ p1.data = _
    simp
  have hrepl : replaceAllChar '-' '_' (p0 ++ "-" ++ p1) =
      ⟨p0.data ++ '_' :: p1.data⟩ := by
    show String.mk ((p0 ++ "-" ++ p1).data.map _) = _
    rw [hdata, List.map_append, List.map_cons, map_replace_eq_self _ _ _ h0d,
      map_replace_eq_self _ _ _ h1d, if_pos rfl]
  have hsplit : jsSplit '_' (replaceAllChar '-' '_' (p0 ++ "-" ++ p1)) =
      [p0, p1] := by
    rw [hrepl]
    show (jsSplitAux '_' (p0.data ++ '_' :: p1.data) []).map String.mk = _
    rw [jsSplitAux_sep_split _ _ _ _ h0u, jsSplitAux_no_sep _ _ _ h1u]
    simp
  have hsdk : localeToSdkLocale (p0 ++ "-" ++ p1) = p0 ++ "_" ++ p1 := by
    simp only [localeToSdkLocale]
    rw [hsplit]
    show jsToLowerCase p0 ++ "_" ++ jsToUpperCase p1 = p0 ++ "_" ++ p1
    rw [hlow, hup]
  rw [hsdk]
  have hdata2 : (p0 ++ "_" ++ p1).data = p0.data ++ '_' :: p1.data := by
    show p0.data ++ ['_'] ++ p1.data = _
    simp
  show String.mk ((p0 ++ "_" ++ p1).data.map _) = _
  rw [hdata2, List.map_append, List.map_cons, map_replace_eq_self _ _ _ h0u,
    map_replace_eq_self _ _ _ h1u, if_pos rfl]
  exact congrArg String.mk hdata.symm

/-- C4: `normalizeLocale` replaces every underscore with a dash and changes
no other character (in particular no case); `normalizeLocale "nb_NO" =
"nb-NO"`; the round trip through `localeToSdkLocale` restores every
already-correctly-cased dash-separated 2-segment input (lowercase language,
uppercase region, segments free of separators), such as `"fr-CA"`; but it
does not restore `"FR-ca"`, so the pair is not a true inverse pair. -/
theorem normalizeLocale_spec :
    (∀ l : String, (normalizeLocale l).data =
      l.data.map (fun c => if c = '_' then '-' else c)) ∧
    normalizeLocale "nb_NO" = "nb-NO" ∧
    (∀ p0 p1 : String,
      '-' ∉ p0.data → '_' ∉ p0.data → '-' ∉ p1.data → '_' ∉ p1.data →
      jsToLowerCase p0 = p0 → jsToUpperCase p1 = p1 →
      normalizeLocale (localeToSdkLocale (p0 ++ "-" ++ p1)) = p0 ++ "-" ++ p1) ∧
    normalizeLocale (localeToSdkLocale "fr-CA") = "fr-CA" ∧
    normalizeLocale (localeToSdkLocale "FR-ca") ≠ "FR-ca" :=
  ⟨fun _ => rfl, by decide, localeRoundTrip, by decide, by decide⟩

/-- Witness for C4: the round-trip hypotheses exercised at the
correctly-cased two-segment input `"fr" ++ "-" ++ "CA"`. -/
theorem normalizeLocale_spec_witness :
    ('-' ∉ "fr".data ∧ '_' ∉ "fr".data ∧ '-' ∉ "CA".data ∧ '_' ∉ "CA".data ∧
      jsToLowerCase "fr" = "fr" ∧ jsToUpperCase "CA" = "CA") ∧
    normalizeLocale (localeToSdkLocale ("fr" ++ "-" ++ "CA")) = "fr" ++ "-" ++ "CA" :=
  ⟨⟨by decide, by decide, by decide, by decide, by decide, by decide⟩,
    normalizeLocale_spec.2.2.1 "fr" "CA" (by decide) (by decide) (by decide)
      (by decide) (by decide) (by decide)⟩

/-- C10: any input whose dash/underscore segmentation has four or more
segments falls into the single-segment branch, so the result is the whole
dash-to-underscore rewritten string, lowercased. -/
theorem localeToSdkLocale_four_plus_segments (l : String)
    (h : 4 ≤ (jsSplit '_' (replaceAllChar '-' '_' l)).length) :
    localeToSdkLocale l = jsToLowerCase (replaceAllChar '-' '_' l) := by
  rcases hp : jsSplit '_' (replaceAllChar '-' '_' l) with
    _ | ⟨p0, _ | ⟨p1, _ | ⟨p2, _ | ⟨p3, rest⟩⟩⟩⟩ <;>
    rw [hp] at h <;> simp only [List.length] at h <;>
    first
    | omega
    | (simp only [localeToSdkLocale]; rw [hp])

/-- Witness for C10: the four-segment input `"a-b-c-d"`. -/
theorem localeToSdkLocale_four_plus_segments_witness :
    4 ≤ (jsSplit '_' (replaceAllChar '-' '_' "a-b-c-d")).length ∧
    localeToSdkLocale "a-b-c-d" = jsToLowerCase (replaceAllChar '-' '_' "a-b-c-d") :=
  ⟨by decide, localeToSdkLocale_four_plus_segments "a-b-c-d" (by decide)⟩

/-! ### Claims about the signer -/

set_option maxRecDepth 20000

/-- C1 (amended): the signature input is the separator-free concatenation of
appKey, the method exactly as supplied (the code does not uppercase it — all
in-repository callers already pass uppercase method names), the path with
query, the decimal timestamp, the nonce and the base64 MD5 digest of the
body; the signature is the base64 HMAC-SHA256 of that string keyed by the
(leniently) base64-decoded secret; and the header is
`epi-hmac appKey:timestamp:nonce:signature`. -/
theorem createHmacAuthHeader_algorithm (config : OptimizelyGraphConfig)
    (method path body : String) (timestamp : Nat) (nonce : String) :
    createHmacAuthHeader config method path timestamp nonce body =
      { authorization :=
          "epi-hmac " ++ config.appKey ++ ":" ++ toString timestamp ++ ":" ++
            nonce ++ ":" ++
            base64Encode (hmacSha256 (nodeBase64Decode config.secret)
              (utf8Bytes (config.appKey ++ method ++ path ++
                toString timestamp ++ nonce ++
                base64Encode (md5 (utf8Bytes body))))) } := rfl

/-- Counterexample to C1 as stated: for the lowercase method `"get"` the code
signs the method verbatim, so the header differs from the claim's
uppercase-the-method algorithm (`specComputeAuthHeader`). -/
theorem createHmacAuthHeader_method_not_uppercased :
    createHmacAuthHeader ⟨"https://cg.optimizely.com", "appKey", "c2VjcmV0"⟩
        "get" "/content/v2" 1700000000000 "0123456789abcdef0123456789abcdef" "" ≠
      specComputeAuthHeader ⟨"https://cg.optimizely.com", "appKey", "c2VjcmV0"⟩
        "get" "/content/v2" 1700000000000 "0123456789abcdef0123456789abcdef" "" := by
  decide

/-- C2 (amended): constructing the configuration with the appKey or secret
environment variable absent (or empty — both are falsy) throws immediately
rather than defaulting them; but a non-base64 secret does not make signing
fail: `Buffer.from(secret, 'base64')` decodes leniently and the signer
totally produces a header keyed by whatever that decode yields. -/
theorem getOptimizelyGraphConfig_failure_modes (env : ImportMetaEnv)
    (h : truthyS env.appKeyVar = false ∨ truthyS env.secretVar = false) :
    getOptimizelyGraphConfig env =
      .error "Missing required environment variables: OPTIMIZELY_GRAPH_APP_KEY and OPTIMIZELY_GRAPH_SECRET" ∧
    ∀ (config : OptimizelyGraphConfig) (method path body : String)
      (timestamp : Nat) (nonce : String),
      (createHmacAuthHeader config method path timestamp nonce body).authorization =
        "epi-hmac " ++ config.appKey ++ ":" ++ toString timestamp ++ ":" ++
          nonce ++ ":" ++
          base64Encode (hmacSha256 (nodeBase64Decode config.secret)
            (utf8Bytes (config.appKey ++ method ++ path ++ toString timestamp ++
              nonce ++ base64Encode (md5 (utf8Bytes body))))) := by
  constructor
  · rcases h with h | h <;> simp [getOptimizelyGraphConfig, h]
  · intro config method path body timestamp nonce
    rfl

/-- Witness for C2 (amended): both variables unset. -/
theorem getOptimizelyGraphConfig_failure_modes_witness :
    (truthyS (ImportMetaEnv.mk none none none).appKeyVar = false ∨
      truthyS (ImportMetaEnv.mk none none none).secretVar = false) ∧
    getOptimizelyGraphConfig ⟨none, none, none⟩ =
      .error "Missing required environment variables: OPTIMIZELY_GRAPH_APP_KEY and OPTIMIZELY_GRAPH_SECRET" :=
  ⟨Or.inl (by decide),
    (getOptimizelyGraphConfig_failure_modes ⟨none, none, none⟩ (Or.inl (by decide))).1⟩

/-- Counterexample to C2 as stated: `"%%%"` is not valid base64, yet
computing the auth header does not fail — it silently signs with the same
(empty) key the empty secret would give. -/
theorem invalid_base64_secret_signs_silently :
    isValidBase64 "%%%" = false ∧
    nodeBase64Decode "%%%" = nodeBase64Decode "" ∧
    createHmacAuthHeader ⟨"https://cg.optimizely.com", "appKey", "%%%"⟩
        "GET" "/content/v2" 0 "abc" "" =
      createHmacAuthHeader ⟨"https://cg.optimizely.com", "appKey", ""⟩
        "GET" "/content/v2" 0 "abc" "" :=
  ⟨by decide, by decide, rfl⟩

/-! ### Claims about the request dispatcher and the synonym upload -/

/-- C7 (amended): for method GET no body is attached to the outgoing request;
for every other method the supplied body is sent verbatim; and in every case
the signature digests the body string actually supplied — which is the empty
string for a GET only because the body option defaults to empty when
omitted. -/
theorem makeOptimizelyGraphRequest_body_handling (config : OptimizelyGraphConfig)
    (endpoint : String) (options : RequestOptions) (timestamp : Nat)
    (nonce : String) :
    (options.method = "GET" →
      (makeOptimizelyGraphRequest config endpoint options timestamp nonce).body =
        none) ∧
    (options.method ≠ "GET" →
      (makeOptimizelyGraphRequest config endpoint options timestamp nonce).body =
        some options.body) ∧
    ("authorization",
        (createHmacAuthHeader config options.method
          (pathWithQuery endpoint options.queryParams) timestamp nonce
          options.body).authorization) ∈
      (makeOptimizelyGraphRequest config endpoint options timestamp nonce).headers ∧
    ({ method := "GET" : RequestOptions }).body = "" := by
  refine ⟨?_, ?_, ?_, rfl⟩
  · intro h
    simp [makeOptimizelyGraphRequest, h]
  · intro h
    simp [makeOptimizelyGraphRequest, h]
  · simp [makeOptimizelyGraphRequest]

/-- Witness for C7 (amended): the default options carry method GET, and the
resulting request has no body. -/
theorem makeOptimizelyGraphRequest_body_handling_witness :
    ({} : RequestOptions).method = "GET" ∧
    (makeOptimizelyGraphRequest ⟨"https://cg.optimizely.com", "appKey", "c2VjcmV0"⟩
      "/content/v2" {} 0 "abc").body = none :=
  ⟨rfl,
    (makeOptimizelyGraphRequest_body_handling
      ⟨"https://cg.optimizely.com", "appKey", "c2VjcmV0"⟩ "/content/v2" {} 0
      "abc").1 rfl⟩

/-- Counterexample to C7 as stated: a GET carrying the body `"x"` attaches no
body, yet its signature digests `"x"`, not the empty string — the two
headers differ. -/
theorem get_with_body_digests_supplied_body :
    (makeOptimizelyGraphRequest ⟨"https://cg.optimizely.com", "appKey", "c2VjcmV0"⟩
        "/p" ⟨"GET", "x", [], []⟩ 0 "abc").body = none ∧
    (makeOptimizelyGraphRequest ⟨"https://cg.optimizely.com", "appKey", "c2VjcmV0"⟩
        "/p" ⟨"GET", "x", [], []⟩ 0 "abc").headers =
      [("Content-Type", "text/plain"),
       ("authorization",
         (createHmacAuthHeader ⟨"https://cg.optimizely.com", "appKey", "c2VjcmV0"⟩
           "GET" "/p" 0 "abc" "x").authorization)] ∧
    (createHmacAuthHeader ⟨"https://cg.optimizely.com", "appKey", "c2VjcmV0"⟩
        "GET" "/p" 0 "abc" "x").authorization ≠
      (createHmacAuthHeader ⟨"https://cg.optimizely.com", "appKey", "c2VjcmV0"⟩
        "GET" "/p" 0 "abc" "").authorization :=
  ⟨rfl, rfl, by decide⟩

/-- C9: `uploadSynonyms` with slot `"1"` and language routing `"en"` issues a
PUT whose path with query is
`/resources/synonyms?synonym_slot=1&language_routing=en`, whose body is the
literal synonym text (any string, the empty one included), and whose headers
carry an `epi-hmac appKey:timestamp:nonce:signature` authorization value. -/
theorem uploadSynonymsRequest_shape (config : OptimizelyGraphConfig)
    (synonyms : String) (timestamp : Nat) (nonce : String) :
    (uploadSynonymsRequest config synonyms ⟨"1", "en"⟩ timestamp nonce).method =
      "PUT" ∧
    (uploadSynonymsRequest config synonyms ⟨"1", "en"⟩ timestamp nonce).body =
      some synonyms ∧
    pathWithQuery "/resources/synonyms"
        [("synonym_slot", "1"), ("language_routing", "en")] =
      "/resources/synonyms?synonym_slot=1&language_routing=en" ∧
    (uploadSynonymsRequest config synonyms ⟨"1", "en"⟩ timestamp nonce).url =
      config.gatewayUrl ++ "/resources/synonyms?synonym_slot=1&language_routing=en" ∧
    ∃ signature,
      ("authorization",
          "epi-hmac " ++ config.appKey ++ ":" ++ toString timestamp ++ ":" ++
            nonce ++ ":" ++ signature) ∈
        (uploadSynonymsRequest config synonyms ⟨"1", "en"⟩ timestamp nonce).headers := by
  refine ⟨rfl, rfl, by decide, rfl, ?_⟩
  refine ⟨base64Encode (hmacSha256 (nodeBase64Decode config.secret)
    (utf8Bytes (config.appKey ++ "PUT" ++
      pathWithQuery "/resources/synonyms"
        [("synonym_slot", "1"), ("language_routing", "en")] ++
      toString timestamp ++ nonce ++ base64Encode (md5 (utf8Bytes synonyms))))), ?_⟩
  simp [uploadSynonymsRequest, makeOptimizelyGraphRequest, createHmacAuthHeader]

/-- C8: `uploadSynonyms` succeeds exactly when the response status is 2xx,
and a rejected network call is converted into a `success := false` result
carrying the error message instead of being rethrown. -/
theorem uploadSynonyms_tristate (config : OptimizelyGraphConfig)
    (synonyms : String) (options : SynonymOptions) (timestamp : Nat)
    (nonce : String) (net : OutgoingRequest → FetchOutcome HttpTextResponse) :
    ((uploadSynonyms config synonyms options timestamp nonce net).success = true ↔
      ∃ r, net (uploadSynonymsRequest config synonyms options timestamp nonce) =
          .resolved r ∧ 200 ≤ r.status ∧ r.status < 300) ∧
    (∀ e, net (uploadSynonymsRequest config synonyms options timestamp nonce) =
        .rejected e →
      uploadSynonyms config synonyms options timestamp nonce net =
        { success := false
          message := "Network error"
          error := some (e.getD "Unknown error") }) := by
  constructor
  · cases hn : net (uploadSynonymsRequest config synonyms options timestamp nonce) with
    | rejected e => simp [uploadSynonyms, hn]
    | resolved r =>
      simp only [uploadSynonyms, hn]
      by_cases hok : responseOk r.status = true
      · have : 200 ≤ r.status ∧ r.status < 300 := by
          simpa [responseOk] using hok
        simp [hok, this]
      · have : ¬(200 ≤ r.status ∧ r.status < 300) := by
          simpa [responseOk] using hok
        simp [Bool.not_eq_true] at hok
        simp [hok, this]
  · intro e he
    simp [uploadSynonyms, he]

/-- Witness for C8: a network that rejects with an `Error` whose message is
`"boom"`. -/
theorem uploadSynonyms_tristate_witness :
    (fun (_ : OutgoingRequest) =>
        FetchOutcome.rejected (ρ := HttpTextResponse) (some "boom"))
      (uploadSynonymsRequest ⟨"https://cg.optimizely.com", "appKey", "c2VjcmV0"⟩
        "horse, equine" {} 0 "abc") = .rejected (some "boom") ∧
    uploadSynonyms ⟨"https://cg.optimizely.com", "appKey", "c2VjcmV0"⟩
        "horse, equine" {} 0 "abc" (fun _ => .rejected (some "boom")) =
      { success := false, message := "Network error", error := some "boom" } :=
  ⟨rfl,
    (uploadSynonyms_tristate ⟨"https://cg.optimizely.com", "appKey", "c2VjcmV0"⟩
      "horse, equine" {} 0 "abc" (fun _ => .rejected (some "boom"))).2
      (some "boom") rfl⟩

/-! ### Claims about content search and result normalization -/

/-- A string with a non-empty left part stays non-empty under append. -/
theorem append_ne_empty_left (a b : String) (h : a.data ≠ []) : a ++ b ≠ "" := by
  intro he
  have hd : a.data ++ b.data = ([] : List Char) := congrArg String.data he
  rcases hab : a.data with _ | ⟨c, cs⟩
  · exact h hab
  · rw [hab] at hd
    simp at hd

/-- C5: `searchContent` never throws — a non-2xx status or a present GraphQL
`errors` array yields `{items := [], error := some e}` with `e` non-empty, a
rejected network call is caught and reported the same way, and otherwise the
items are extracted from `Content.items`, else `_Content.items`, else the
empty list, then normalized and filtered. -/
theorem searchContent_error_handling
    (resolveUrl : String → String → Option String) (response : GraphResponse) :
    (responseOk response.status = false →
      ∃ e, e ≠ "" ∧ searchContent resolveUrl (.resolved response) =
        { items := [], error := some e }) ∧
    (∀ result errs, responseOk response.status = true →
      response.json = .ok result → result.errors = some errs →
      ∃ e, e ≠ "" ∧ searchContent resolveUrl (.resolved response) =
        { items := [], error := some e }) ∧
    (∀ result, responseOk response.status = true → response.json = .ok result →
      result.errors = none →
      searchContent resolveUrl (.resolved response) =
        { items :=
            (((jsOrArr ((result.data.bind (fun d => d.Content)).bind
                  (fun c => c.items))
                ((result.data.bind (fun d => d._Content)).bind
                  (fun c => c.items))).getD []).map
              (transformContentItem resolveUrl)).filter
              (fun i => truthyS i.guid)
          error := none }) ∧
    (∀ e, searchContent resolveUrl (.rejected e) =
      { items := [], error := some (e.getD "Unknown error during content search") }) := by
  refine ⟨?_, ?_, ?_, fun e => rfl⟩
  · intro h
    refine ⟨"GraphQL query failed: " ++ toString response.status ++ " " ++
        response.statusText ++ " - " ++ response.bodyText,
      append_ne_empty_left "GraphQL query failed: " _ (by decide), ?_⟩
    simp [searchContent, h]
  · intro result errs hok hj herr
    refine ⟨"GraphQL errors: " ++
        String.intercalate ", " (errs.map (fun e => e.message)),
      append_ne_empty_left "GraphQL errors: " _ (by decide), ?_⟩
    simp [searchContent, hok, hj, herr]
  · intro result hok hj herr
    simp [searchContent, hok, hj, herr]

/-- Witness for C5: a 500 response produces an empty item list and a
non-empty error message. -/
theorem searchContent_error_handling_witness :
    responseOk (GraphResponse.mk 500 "Internal Server Error" "backend down"
        (.error "not json")).status = false ∧
    (∃ e, e ≠ "" ∧
      searchContent (fun d b => some (b ++ d))
          (.resolved ⟨500, "Internal Server Error", "backend down", .error "not json"⟩) =
        { items := [], error := some e }) :=
  ⟨by decide,
    (searchContent_error_handling (fun d b => some (b ++ d))
      ⟨500, "Internal Server Error", "backend down", .error "not json"⟩).1
      (by decide)⟩

/-- C6: the normalized identifier is the metadata key when it resolves
(present and non-empty), else the top-level id, else the content-link GUID;
the display name is the explicit name, else the page name, else the metadata
display name, else `"Untitled"`; and every item `searchContent` returns has a
resolving identifier. -/
theorem transformContentItem_priorities
    (resolveUrl : String → String → Option String) (item : RawItem) :
    ((transformContentItem resolveUrl item).guid =
      if truthyS (item._metadata.bind (fun m => m.key)) then
        item._metadata.bind (fun m => m.key)
      else if truthyS item._id then item._id
      else item.ContentLink.bind (fun c => c.GuidValue)) ∧
    ((transformContentItem resolveUrl item).name =
      if truthyS item.Name then item.Name.getD ""
      else if truthyS item.PageName then item.PageName.getD ""
      else if truthyS (item._metadata.bind (fun m => m.displayName)) then
        (item._metadata.bind (fun m => m.displayName)).getD ""
      else "Untitled") ∧
    (∀ outcome i, i ∈ (searchContent resolveUrl outcome).items →
      truthyS i.guid = true) := by
  refine ⟨rfl, ?_, ?_⟩
  · cases ha : truthyS item.Name <;>
      cases hb : truthyS item.PageName <;>
        cases hc : truthyS (item._metadata.bind (fun m => m.displayName)) <;>
          simp [transformContentItem, jsOr, jsOrDefault, ha, hb, hc]
  · intro outcome i hi
    cases outcome with
    | rejected e => simp [searchContent] at hi
    | resolved r =>
      obtain ⟨st, stx, bt, js⟩ := r
      cases hok : responseOk st with
      | false => simp [searchContent, hok] at hi
      | true =>
        rcases js with msg | result
        · simp [searchContent, hok] at hi
        · rcases herr : result.errors with _ | errs
          · simp [searchContent, hok, herr] at hi
            exact hi.2
          · simp [searchContent, hok, herr] at hi

/-- The raw item, URL resolver and 200 response used as concrete witnesses. -/
def rawItemEx : RawItem := { _id := some "abc123" }

def resolveUrlEx : String → String → Option String := fun d b => some (b ++ d)

def okGraphResponseEx : GraphResponse :=
  ⟨200, "OK", "",
    .ok { errors := none
          data := some { Content := some { items := some [rawItemEx] }
                         _Content := none } }⟩

/-- Witness for C6: the returned item built from `rawItemEx` is a member of
the search result and its identifier resolves. -/
theorem transformContentItem_priorities_witness :
    transformContentItem resolveUrlEx rawItemEx ∈
      (searchContent resolveUrlEx (.resolved okGraphResponseEx)).items ∧
    truthyS (transformContentItem resolveUrlEx rawItemEx).guid = true := by
  have hmem : transformContentItem resolveUrlEx rawItemEx ∈
      (searchContent resolveUrlEx (.resolved okGraphResponseEx)).items := by
    rw [show (searchContent resolveUrlEx (.resolved okGraphResponseEx)).items =
      [transformContentItem resolveUrlEx rawItemEx] from rfl]
    exact List.mem_cons_self _ _
  exact ⟨hmem,
    (transformContentItem_priorities resolveUrlEx rawItemEx).2.2
      (.resolved okGraphResponseEx) (transformContentItem resolveUrlEx rawItemEx)
      hmem⟩

end OptiAstro
